import Mathlib

/-!
Verification of the game-search backend (a Node.js service that validates a
batch of screenshot images, forwards them to a remote vision model, then to a
remote reasoning model, and returns the final text).

The repository contains three near-duplicate handlers:
  * `src/server.js`          — standalone server, sequential per-image vision
                               calls, image-count bound 5–9;
  * `src/api/analyze.js`     — serverless handler, one batched vision call then
                               one reasoning call, bound 2–9;
  * `src/unnamed/part_000`   — serverless handler, a single combined call,
                               bound 2–9.

JavaScript values flowing through the handlers are embedded as `JVal`
(JSON-style trees; numbers are modelled as integers, which suffices for every
value the handlers inspect).  Property access, truthiness, string conversion
and `String.prototype.trim` are embedded faithfully.  The network is abstracted
as an oracle `Nat → Except String JVal` giving the settled outcome (parsed
JSON or error message) of the i-th outbound call; the handlers are then pure
functions from configuration, parsed request body and oracle to an outcome
recording the list of outbound calls, the HTTP status and the response body.
A JavaScript exception (the extractor calling `.forEach` on a non-array) is
modelled by `Option`: `none` means the extractor throws.
-/

namespace GameSearch

/-- JSON-style JavaScript values (numbers as integers). -/
inductive JVal where
  | null
  | bool (b : Bool)
  | num (n : Int)
  | str (s : String)
  | arr (elems : List JVal)
  | obj (fields : List (String × JVal))

/-- JavaScript truthiness of a value. -/
def truthy : JVal → Bool
  | .null => false
  | .bool b => b
  | .num n => n != 0
  | .str s => s != ""
  | .arr _ => true
  | .obj _ => true

/-- Property access `v[k]`: `some` for a key present on an object, `none` for
`undefined` (missing key or non-object receiver, which also models the
short-circuit of optional chaining on `null`). -/
def getField : JVal → String → Option JVal
  | .obj fs, k => (fs.find? (fun p => p.1 == k)).map Prod.snd
  | _, _ => none

/-- JavaScript `a || b` where `a` may be `undefined` (`none`). -/
def jsOr (a : Option JVal) (b : JVal) : JVal :=
  match a with
  | some v => if truthy v then v else b
  | none => b

mutual

/-- JavaScript `String(v)` conversion for the embedded values. -/
def jsToString : JVal → String
  | .null => "null"
  | .bool b => if b then "true" else "false"
  | .num n => toString n
  | .str s => s
  | .arr xs => String.intercalate "," (jsElemStrings xs)
  | .obj _ => "[object Object]"

/-- Element conversion used by `Array.prototype.join`: `null` becomes the
empty string, everything else is converted by `String(·)`. -/
def jsElemStrings : List JVal → List String
  | [] => []
  | v :: rest =>
    (match v with
     | .null => ""
     | w => jsToString w) :: jsElemStrings rest

end

/-- The WhiteSpace and LineTerminator characters removed by
`String.prototype.trim` (ECMAScript). -/
def isJsWhitespace (c : Char) : Bool :=
  c == ' ' || c == '\t' || c == '\n' || c == '\r' || c == '\x0b' || c == '\x0c' ||
  c == '\u00A0' || c == '\u1680' || c == '\u2000' || c == '\u2001' || c == '\u2002' ||
  c == '\u2003' || c == '\u2004' || c == '\u2005' || c == '\u2006' || c == '\u2007' ||
  c == '\u2008' || c == '\u2009' || c == '\u200A' || c == '\u2028' || c == '\u2029' ||
  c == '\u202F' || c == '\u205F' || c == '\u3000' || c == '\uFEFF'

/-- Both-ends trim of a character list. -/
def jsTrimList (l : List Char) : List Char :=
  ((l.dropWhile isJsWhitespace).reverse.dropWhile isJsWhitespace).reverse

/-- JavaScript `s.trim()`. -/
def jsTrim (s : String) : String :=
  String.mk (jsTrimList s.toList)

/-!  ## The text extractor (`extractTextFromResponse`)

The identical function appears in `src/server.js`, `src/api/analyze.js` and
`src/unnamed/part_000`:

```js
function extractTextFromResponse(data) {
  const candidates = [];
  if (data && data.output_text) candidates.push(data.output_text);
  if (Array.isArray(data?.output)) {
    data.output.forEach((item) => {
      if (item?.content) {
        item.content.forEach((content) => {
          if (content?.text) candidates.push(content.text);
        });
      }
    });
  }
  if (Array.isArray(data?.choices)) {
    data.choices.forEach((choice) => {
      const content = choice?.message?.content;
      if (content) candidates.push(content);
    });
  }
  return candidates.join("\n").trim();
}
```

`item.content.forEach` throws a TypeError when `item.content` is truthy but
not an array; this is the `none` result below. -/

/-- The truthy `text` fields of the entries of one `content` array. -/
def contentTexts (cs : List JVal) : List JVal :=
  cs.filterMap fun c =>
    match getField c "text" with
    | some t => if truthy t then some t else none
    | none => none

/-- Candidates contributed by one entry of the `output` array; `none` models
the TypeError thrown when `item.content` is truthy but not an array. -/
def outputItemTexts (item : JVal) : Option (List JVal) :=
  match getField item "content" with
  | some c =>
    if truthy c then
      match c with
      | .arr cs => some (contentTexts cs)
      | _ => none
    else some []
  | none => some []

/-- `choice?.message?.content` when truthy. -/
def choiceContent (choice : JVal) : Option JVal :=
  match (getField choice "message").bind (fun m => getField m "content") with
  | some c => if truthy c then some c else none
  | none => none

/-- The candidate pushed for a truthy top-level `output_text` field. -/
def outputTextCand (data : JVal) : List JVal :=
  match getField data "output_text" with
  | some v => if truthy data && truthy v then [v] else []
  | none => []

/-- The `candidates` array built by `extractTextFromResponse`; `none` models
the TypeError described at `outputItemTexts`. -/
def extractCandidates (data : JVal) : Option (List JVal) :=
  let c2 : Option (List JVal) :=
    match getField data "output" with
    | some (.arr items) => (items.mapM outputItemTexts).map List.flatten
    | _ => some []
  let c3 : List JVal :=
    match getField data "choices" with
    | some (.arr chs) => chs.filterMap choiceContent
    | _ => []
  c2.map (fun l2 => outputTextCand data ++ l2 ++ c3)

/-- `extractTextFromResponse`: `candidates.join("\n").trim()`, `none` when the
function throws. -/
def extractTextFromResponse (data : JVal) : Option String :=
  (extractCandidates data).map fun cands =>
    jsTrim (String.intercalate "\n" (cands.map jsToString))

/-- `extractTextFromResponse(extractTextFromResponse(d))`: the result string
is fed back to the extractor as a JavaScript string. -/
def extractTwice (d : JVal) : Option String :=
  (extractTextFromResponse d).bind fun r => extractTextFromResponse (JVal.str r)

/-!  ### Spec-side description of the extractor (for the refinement claim) -/

/-- Modelled from the spec: the fragments contributed by one `output` item are
the `text` fields of its `content` entries (an item whose `content` is not an
array contributes nothing — the spec does not mention the TypeError). -/
def specOutputItemTexts (item : JVal) : List JVal :=
  match getField item "content" with
  | some (.arr cs) => contentTexts cs
  | _ => []

/-- Modelled from the spec: all found fragments in the order
`output_text`, then `output[].content[].text`, then
`choices[].message.content`. -/
def specFragments (data : JVal) : List JVal :=
  outputTextCand data ++
  (match getField data "output" with
   | some (.arr items) => (items.map specOutputItemTexts).flatten
   | _ => []) ++
  (match getField data "choices" with
   | some (.arr chs) => chs.filterMap choiceContent
   | _ => [])

/-- Modelled from the spec: the found fragments joined by a line break and
trimmed. -/
def specExtractText (data : JVal) : String :=
  jsTrim (String.intercalate "\n" ((specFragments data).map jsToString))

/-- An `output` item on which the extractor does not throw: its `content`
field is absent, falsy, or an array. -/
def goodItem (item : JVal) : Bool :=
  match getField item "content" with
  | some c =>
    !truthy c ||
    (match c with
     | .arr _ => true
     | _ => false)
  | none => true

/-- A value on which the extractor does not throw. -/
def goodOutput (data : JVal) : Bool :=
  match getField data "output" with
  | some (.arr items) => items.all goodItem
  | _ => true

/-!  ## The remote model client (`postArk`)

Response handling once the full body has arrived (identical in all three
files):

```js
if (res.statusCode < 200 || res.statusCode >= 300) {
  reject(new Error(`模型请求失败：${res.statusCode} ${raw}`));
  return;
}
try {
  resolve(JSON.parse(raw));
} catch (err) {
  reject(new Error("模型返回非 JSON 格式"));
}
```

`JSON.parse` is abstracted as a parameter `parse` so that independence from it
on the non-2xx path is expressible. -/

def postArkHandleResponse (parse : String → Option JVal) (statusCode : Nat)
    (raw : String) : Except String JVal :=
  if statusCode < 200 || 300 ≤ statusCode then
    .error ("模型请求失败：" ++ toString statusCode ++ " " ++ raw)
  else
    match parse raw with
    | some v => .ok v
    | none => .error "模型返回非 JSON 格式"

/-!  ## The analysis handlers -/

/-- One part of the `content` array of an outbound payload. -/
inductive ContentPart where
  | inputImage (imageUrl : JVal)
  | inputText (text : String)

/-- One outbound call to the external API (`step` is the log label passed by
`src/server.js`; the serverless handlers pass none). -/
structure ArkCall where
  model : String
  content : List ContentPart
  step : Option String

/-- The observable outcome of one request: the outbound calls issued in order,
the HTTP status and the JSON response body. -/
structure HandlerOutcome where
  calls : List ArkCall
  status : Nat
  respBody : JVal

/-- `sendJson(res, s, { error: m })` body. -/
def errObj (m : String) : JVal :=
  JVal.obj [("error", JVal.str m)]

/-- Message of the TypeError thrown by the extractor (exact text is
engine-dependent; only its presence matters to the claims). -/
def forEachTypeErrorMsg : String :=
  "item.content.forEach is not a function"

/-- `err.message || fallback`. -/
def jsErrOr (e fallback : String) : String :=
  if e = "" then fallback else e

/-- `Array.isArray(body?.images) ? body.images : []`. -/
def imagesOf (body : JVal) : List JVal :=
  match getField body "images" with
  | some (.arr l) => l
  | _ => []

/-- `body?.prompts || {}`. -/
def promptsOf (body : JVal) : JVal :=
  jsOr (getField body "prompts") (JVal.obj [])

/-- Whether `body?.images` is an array. -/
def imagesIsArray (body : JVal) : Bool :=
  match getField body "images" with
  | some (.arr _) => true
  | _ => false

/-- Configuration of `src/server.js` read at startup (environment variables
and the model id parsed from `API key.txt`; unset is the empty string). -/
structure ServerConfig where
  envVisionModel : String
  envThinkingModel : String
  fileVisionModel : String

/-- `String(prompts.vision || "").trim()` in `src/server.js`. -/
def serverVisionPrompt (body : JVal) : String :=
  jsTrim (jsToString (jsOr (getField (promptsOf body) "vision") (JVal.str "")))

/-- `String(prompts.thinking || "").trim()` in `src/server.js`. -/
def serverThinkingPrompt (body : JVal) : String :=
  jsTrim (jsToString (jsOr (getField (promptsOf body) "thinking") (JVal.str "")))

/-- `String(body?.visionModel || ENV_VISION_MODEL || modelFromFile.visionModel).trim()`. -/
def serverVisionModel (cfg : ServerConfig) (body : JVal) : String :=
  jsTrim (jsToString (jsOr (getField body "visionModel")
    (jsOr (some (JVal.str cfg.envVisionModel)) (JVal.str cfg.fileVisionModel))))

/-- `String(body?.thinkingModel || ENV_THINKING_MODEL || modelFromFile.visionModel || visionModel).trim()`. -/
def serverThinkingModel (cfg : ServerConfig) (body : JVal) : String :=
  jsTrim (jsToString (jsOr (getField body "thinkingModel")
    (jsOr (some (JVal.str cfg.envThinkingModel))
      (jsOr (some (JVal.str cfg.fileVisionModel))
        (JVal.str (serverVisionModel cfg body))))))

/-- The `input_text` of the i-th (0-based) vision call of `src/server.js`. -/
def serverVisionCallText (prompt : String) (i : Nat) : String :=
  (if prompt = "" then "请描述截图内容。" else prompt) ++
  "\n（第 " ++ toString (i + 1) ++ " 张截图）"

/-- The labeled block pushed onto `visionResults` for the i-th image. -/
def visionBlock (i : Nat) (t : String) : String :=
  "【截图 " ++ toString (i + 1) ++ "】\n" ++ (if t = "" then "无识别结果" else t)

/-- The per-image vision loop of `src/server.js` (`for` loop over `images`),
started at 0-based index `i`.  Returns the calls issued and either the error
that aborted the loop or the list of labeled vision blocks. -/
def visionLoop (ark : Nat → Except String JVal) (model prompt : String) :
    List JVal → Nat → List ArkCall × Except String (List String)
  | [], _ => ([], .ok [])
  | img :: rest, i =>
    let call : ArkCall :=
      ⟨model,
       [ContentPart.inputImage img, ContentPart.inputText (serverVisionCallText prompt i)],
       some ("vision_" ++ toString (i + 1))⟩
    match ark i with
    | .error e => ([call], .error e)
    | .ok resp =>
      match extractTextFromResponse resp with
      | none => ([call], .error forEachTypeErrorMsg)
      | some t =>
        match visionLoop ark model prompt rest (i + 1) with
        | (calls, res) => (call :: calls, res.map (fun rs => visionBlock i t :: rs))

/-- `handleAnalyze` of `src/server.js`.  `bodyResult` is the outcome of
`parseJsonBody`; `ark` gives the settled result of the i-th outbound call
(vision call i uses index i, the reasoning call uses index `images.length`). -/
def handleAnalyzeServer (apiKey : String) (cfg : ServerConfig)
    (bodyResult : Except String JVal) (ark : Nat → Except String JVal) :
    HandlerOutcome :=
  if apiKey = "" then ⟨[], 500, errObj "未找到 ARK_API_KEY，请检查 API key.txt"⟩
  else
    match bodyResult with
    | .error msg => ⟨[], 400, errObj msg⟩
    | .ok body =>
      let images := imagesOf body
      let visionModel := serverVisionModel cfg body
      let thinkingModel := serverThinkingModel cfg body
      if images.length < 5 ∨ 9 < images.length then
        ⟨[], 400, errObj "请上传 5-9 张截图"⟩
      else if visionModel = "" ∨ thinkingModel = "" then
        ⟨[], 400, errObj "模型参数缺失，请在 API key.txt 中配置 model"⟩
      else
        match visionLoop ark visionModel (serverVisionPrompt body) images 0 with
        | (vcalls, .error e) => ⟨vcalls, 500, errObj (jsErrOr e "模型调用失败")⟩
        | (vcalls, .ok visionResults) =>
          let thinkingPrompt := serverThinkingPrompt body
          let combinedInput :=
            (if thinkingPrompt = "" then "请给出游戏分析。" else thinkingPrompt) ++
            "\n\n以下是游戏截图的视觉解析结果：\n" ++
            String.intercalate "\n\n" visionResults
          let tcall : ArkCall :=
            ⟨thinkingModel, [ContentPart.inputText combinedInput], some "thinking"⟩
          match ark images.length with
          | .error e => ⟨vcalls ++ [tcall], 500, errObj (jsErrOr e "模型调用失败")⟩
          | .ok resp =>
            match extractTextFromResponse resp with
            | none => ⟨vcalls ++ [tcall], 500, errObj forEachTypeErrorMsg⟩
            | some t =>
              ⟨vcalls ++ [tcall], 200,
               JVal.obj [("resultText",
                 JVal.str (if t = "" then "未能获取模型输出，请检查模型响应。" else t))]⟩

/-- `(process.env.ARK_VISION_MODEL || process.env.ARK_MODEL || "").trim()`. -/
def apiVisionModel (envVision envModel : String) : String :=
  jsTrim (if envVision = "" then envModel else envVision)

/-- `(process.env.ARK_THINKING_MODEL || visionModel).trim()`. -/
def apiThinkingModel (envThinking visionModel : String) : String :=
  jsTrim (if envThinking = "" then visionModel else envThinking)

/-- Configuration of `src/api/analyze.js` (environment variables; unset is the
empty string; the default prompts are `env || <literal>`, passed resolved). -/
structure ApiConfig where
  envApiKey : String
  envVisionModel : String
  envModel : String
  envThinkingModel : String
  defaultVisionPrompt : String
  defaultThinkingPrompt : String

/-- `String(prompts.vision || DEFAULT_VISION_PROMPT).trim()` in
`src/api/analyze.js`. -/
def apiVisionPrompt (cfg : ApiConfig) (body : JVal) : String :=
  jsTrim (jsToString (jsOr (getField (promptsOf body) "vision")
    (JVal.str cfg.defaultVisionPrompt)))

/-- `String(prompts.thinking || DEFAULT_THINKING_PROMPT).trim()` in
`src/api/analyze.js`. -/
def apiThinkingPrompt (cfg : ApiConfig) (body : JVal) : String :=
  jsTrim (jsToString (jsOr (getField (promptsOf body) "thinking")
    (JVal.str cfg.defaultThinkingPrompt)))

/-- The `input_text` appended after the image parts of the batched vision
call of `src/api/analyze.js`. -/
def apiVisionContentText (vp : String) : String :=
  (if vp = "" then "请描述截图内容。" else vp) ++
  "\n请逐张输出，按顺序标注为【截图1】、【截图2】..."

/-- The serverless handler exported by `src/api/analyze.js`: one batched
vision call (oracle index 0), then one reasoning call (oracle index 1). -/
def handleAnalyzeApi (method : String) (cfg : ApiConfig)
    (bodyResult : Except String JVal) (ark : Nat → Except String JVal) :
    HandlerOutcome :=
  if method ≠ "POST" then ⟨[], 405, errObj "Method Not Allowed"⟩
  else
    let apiKey := jsTrim cfg.envApiKey
    let visionModel := apiVisionModel cfg.envVisionModel cfg.envModel
    let thinkingModel := apiThinkingModel cfg.envThinkingModel visionModel
    if apiKey = "" then ⟨[], 500, errObj "未配置 ARK_API_KEY"⟩
    else if visionModel = "" ∨ thinkingModel = "" then
      ⟨[], 500, errObj "未配置模型 ID（ARK_MODEL/ARK_VISION_MODEL）"⟩
    else
      match bodyResult with
      | .error msg => ⟨[], 400, errObj msg⟩
      | .ok body =>
        let images := imagesOf body
        let visionPrompt := apiVisionPrompt cfg body
        let thinkingPrompt := apiThinkingPrompt cfg body
        if images.length < 2 ∨ 9 < images.length then
          ⟨[], 400, errObj "请上传 2-9 张截图"⟩
        else
          let vcall : ArkCall :=
            ⟨visionModel,
             images.map ContentPart.inputImage ++
               [ContentPart.inputText (apiVisionContentText visionPrompt)],
             none⟩
          match ark 0 with
          | .error e => ⟨[vcall], 500, errObj (jsErrOr e "模型调用失败")⟩
          | .ok resp =>
            match extractTextFromResponse resp with
            | none => ⟨[vcall], 500, errObj forEachTypeErrorMsg⟩
            | some vt =>
              let visionText := if vt = "" then "未能获取视觉解析结果。" else vt
              let combined :=
                (if thinkingPrompt = "" then "请给出游戏分析。" else thinkingPrompt) ++
                "\n\n以下是游戏截图的视觉解析结果：\n" ++ visionText
              let tcall : ArkCall := ⟨thinkingModel, [ContentPart.inputText combined], none⟩
              match ark 1 with
              | .error e => ⟨[vcall, tcall], 500, errObj (jsErrOr e "模型调用失败")⟩
              | .ok resp2 =>
                match extractTextFromResponse resp2 with
                | none => ⟨[vcall, tcall], 500, errObj forEachTypeErrorMsg⟩
                | some t =>
                  ⟨[vcall, tcall], 200,
                   JVal.obj [("resultText",
                     JVal.str (if t = "" then "未能获取模型输出，请检查模型响应。" else t))]⟩

/-- Configuration of `src/unnamed/part_000`. -/
structure CombinedConfig where
  envApiKey : String
  envVisionModel : String
  envModel : String
  envThinkingModel : String
  defaultAnalysisPrompt : String

/-- The serverless handler of `src/unnamed/part_000`: a single combined call
(oracle index 0) carrying all images and the analysis prompt. -/
def handleAnalyzeCombined (method : String) (cfg : CombinedConfig)
    (bodyResult : Except String JVal) (ark : Nat → Except String JVal) :
    HandlerOutcome :=
  if method ≠ "POST" then ⟨[], 405, errObj "Method Not Allowed"⟩
  else
    let apiKey := jsTrim cfg.envApiKey
    let visionModel := apiVisionModel cfg.envVisionModel cfg.envModel
    let thinkingModel := apiThinkingModel cfg.envThinkingModel visionModel
    if apiKey = "" then ⟨[], 500, errObj "未配置 ARK_API_KEY"⟩
    else if visionModel = "" ∨ thinkingModel = "" then
      ⟨[], 500, errObj "未配置模型 ID（ARK_MODEL/ARK_VISION_MODEL）"⟩
    else
      match bodyResult with
      | .error msg => ⟨[], 400, errObj msg⟩
      | .ok body =>
        let images := imagesOf body
        let analysisPrompt :=
          jsTrim (jsToString (jsOr (getField (promptsOf body) "analysis")
            (JVal.str cfg.defaultAnalysisPrompt)))
        if images.length < 2 ∨ 9 < images.length then
          ⟨[], 400, errObj "请上传 2-9 张截图"⟩
        else
          let call : ArkCall :=
            ⟨(if thinkingModel = "" then visionModel else thinkingModel),
             images.map ContentPart.inputImage ++ [ContentPart.inputText analysisPrompt],
             none⟩
          match ark 0 with
          | .error e => ⟨[call], 500, errObj (jsErrOr e "模型调用失败")⟩
          | .ok resp =>
            match extractTextFromResponse resp with
            | none => ⟨[call], 500, errObj forEachTypeErrorMsg⟩
            | some t =>
              ⟨[call], 200,
               JVal.obj [("resultText",
                 JVal.str (if t = "" then "未能获取模型输出，请检查模型响应。" else t))]⟩

/-!  ## The request router of `src/server.js` (`http.createServer`) -/

/-- A response payload: JSON (`sendJson`), plain text (`sendText`), or the
result of the static file server (abstracted). -/
inductive Payload where
  | json (v : JVal)
  | text (s : String)
  | fileData (url : String)

/-- Whether a payload is a JSON payload. -/
def payloadIsJson : Payload → Bool
  | .json _ => true
  | _ => false

/-- The `http.createServer` callback of `src/server.js`: routing on method
and url.  `analyzeOutcome` abstracts `handleAnalyze`, `staticResult` abstracts
`serveStatic`. -/
def routeServer (method url : String) (analyzeOutcome : HandlerOutcome)
    (staticResult : Nat × Payload) : Nat × Payload :=
  if method == "POST" && url.startsWith "/api/analyze" then
    (analyzeOutcome.status, .json analyzeOutcome.respBody)
  else if method == "GET" && url.startsWith "/api/health" then
    (200, .json (JVal.obj [("ok", JVal.bool true)]))
  else if method == "GET" then staticResult
  else (405, .text "Method Not Allowed")

/-- The i-th outbound call settles successfully: the HTTP call returns parsed
JSON and the extractor does not throw on it. -/
def callOk (ark : Nat → Except String JVal) (i : Nat) : Prop :=
  ∃ v r, ark i = Except.ok v ∧ extractTextFromResponse v = some r

/-- Well-shaped outcome: 200 with a `resultText` string, or a failure status
from the given list with an `{ error: string }` body. -/
def wellShaped (failStatuses : List Nat) (o : HandlerOutcome) : Prop :=
  (o.status = 200 ∧ ∃ s, o.respBody = JVal.obj [("resultText", JVal.str s)]) ∨
  (o.status ∈ failStatuses ∧ ∃ m, o.respBody = errObj m)

/-- Whether an outbound call carries at least one image part (true of every
vision-stage call; the reasoning-stage call is text-only). -/
def hasImagePart (c : ArkCall) : Bool :=
  c.content.any fun part =>
    match part with
    | .inputImage _ => true
    | .inputText _ => false

/-!  ## Helper lemmas about trimming -/

theorem jsTrimList_eq_rdrop (x : List Char) :
    jsTrimList x = List.rdropWhile isJsWhitespace (List.dropWhile isJsWhitespace x) := rfl

theorem dropWhile_head_false {α : Type} (p : α → Bool) :
    ∀ (l : List α) (a : α) (rs : List α), List.dropWhile p l = a :: rs → p a = false := by
  intro l
  induction l with
  | nil => intro a rs h; cases h
  | cons x xs ih =>
    intro a rs h
    by_cases hx : p x = true
    · rw [List.dropWhile_cons_of_pos hx] at h
      exact ih a rs h
    · rw [List.dropWhile_cons_of_neg hx] at h
      cases h
      simpa using hx

theorem jsTrimList_head_false (l : List Char) (a : Char) (rs : List Char)
    (h : jsTrimList l = a :: rs) : isJsWhitespace a = false := by
  rw [jsTrimList_eq_rdrop] at h
  obtain ⟨t, ht⟩ := List.rdropWhile_prefix isJsWhitespace (List.dropWhile isJsWhitespace l)
  rw [h] at ht
  exact dropWhile_head_false isJsWhitespace l a (rs ++ t) (by rw [← ht]; simp)

theorem dropWhile_jsTrimList (l : List Char) :
    List.dropWhile isJsWhitespace (jsTrimList l) = jsTrimList l := by
  rcases h : jsTrimList l with _ | ⟨a, rs⟩
  · rfl
  · have ha := jsTrimList_head_false l a rs h
    rw [List.dropWhile_cons_of_neg (by simp [ha])]

theorem jsTrimList_idem (l : List Char) : jsTrimList (jsTrimList l) = jsTrimList l := by
  rw [jsTrimList_eq_rdrop (jsTrimList l), dropWhile_jsTrimList,
    jsTrimList_eq_rdrop l, List.rdropWhile_idempotent]

theorem jsTrim_idem (s : String) : jsTrim (jsTrim s) = jsTrim s :=
  congrArg String.mk (jsTrimList_idem s.toList)

/-!  ## Claim C10 — the extractor result is trimmed and empty-string
candidate fields contribute nothing -/

theorem find?_eq_none_of_not_mem_keys (k : String) (fields : List (String × JVal))
    (h : k ∉ fields.map Prod.fst) :
    List.find? (fun p => p.1 == k) fields = none := by
  rw [List.find?_eq_none]
  intro x hx hbeq
  exact h (List.mem_map.mpr ⟨x, hx, by simpa using hbeq⟩)

/-- Claim C10: the extractor result has no leading or trailing whitespace (it
equals its own trim), and a candidate field that is present but holds the
empty string contributes no fragment (hence no line-break separator): an empty
`output_text` leaves the candidate list unchanged, an empty `text` in a
content entry is skipped, and an empty `choices[].message.content` is
skipped. -/
theorem extract_trimmed_and_empty_fields_dropped :
    (∀ d r, extractTextFromResponse d = some r → jsTrim r = r) ∧
    (∀ fields : List (String × JVal), "output_text" ∉ fields.map Prod.fst →
      extractCandidates (JVal.obj (("output_text", JVal.str "") :: fields)) =
        extractCandidates (JVal.obj fields)) ∧
    (∀ pre post : List JVal,
      contentTexts (pre ++ JVal.obj [("text", JVal.str "")] :: post) =
        contentTexts (pre ++ post)) ∧
    (∀ pre post : List JVal,
      List.filterMap choiceContent
          (pre ++ JVal.obj [("message", JVal.obj [("content", JVal.str "")])] :: post) =
        List.filterMap choiceContent (pre ++ post)) := by
  refine ⟨?_, ?_, ?_, ?_⟩
  · intro d r h
    obtain ⟨cands, -, rfl⟩ := Option.map_eq_some'.mp h
    exact jsTrim_idem _
  · intro fields h
    have hfind : List.find? (fun p => p.1 == "output_text") fields = none :=
      find?_eq_none_of_not_mem_keys _ _ h
    have h1 : outputTextCand (JVal.obj (("output_text", JVal.str "") :: fields)) = [] := rfl
    have h2 : outputTextCand (JVal.obj fields) = [] := by
      simp only [outputTextCand, getField, hfind, Option.map_none']
    have h3 : ∀ k : String, k ≠ "output_text" →
        getField (JVal.obj (("output_text", JVal.str "") :: fields)) k =
          getField (JVal.obj fields) k := by
      intro k hk
      have hne : ("output_text" == k) = false :=
        beq_eq_false_iff_ne.mpr fun h => hk h.symm
      simp only [getField]
      rw [List.find?_cons_of_neg _ (by simp [hne])]
    unfold extractCandidates
    rw [h1, h2, h3 "output" (by decide), h3 "choices" (by decide)]
  · intro pre post
    unfold contentTexts
    rw [List.filterMap_append, List.filterMap_append, List.filterMap_cons]
    rfl
  · intro pre post
    rw [List.filterMap_append, List.filterMap_append, List.filterMap_cons]
    rfl

/-- Witness for C10 at concrete inputs. -/
theorem extract_trimmed_and_empty_fields_dropped_witness :
    jsTrim "" = "" ∧
    extractCandidates (JVal.obj [("output_text", JVal.str ""), ("choices", JVal.arr [])]) =
      extractCandidates (JVal.obj [("choices", JVal.arr [])]) :=
  ⟨extract_trimmed_and_empty_fields_dropped.1 (JVal.obj []) "" rfl,
   extract_trimmed_and_empty_fields_dropped.2.1 [("choices", JVal.arr [])] (by decide)⟩

/-!  ## Claim C5 — non-2xx upstream status short-circuits JSON parsing -/

/-- Claim C5: for an upstream HTTP status outside [200,300), `postArk` fails
without JSON-parsing the body (the result does not depend on the parser at
all), and the failure message carries both the status code and the raw
body. -/
theorem postArk_non2xx_no_parse (parse1 parse2 : String → Option JVal)
    (statusCode : Nat) (raw : String)
    (h : statusCode < 200 ∨ 300 ≤ statusCode) :
    postArkHandleResponse parse1 statusCode raw =
      .error ("模型请求失败：" ++ toString statusCode ++ " " ++ raw) ∧
    postArkHandleResponse parse1 statusCode raw =
      postArkHandleResponse parse2 statusCode raw := by
  have hb : (statusCode < 200 || 300 ≤ statusCode) = true := by
    rcases h with h | h <;> simp [h]
  unfold postArkHandleResponse
  rw [if_pos hb, if_pos hb]
  exact ⟨rfl, rfl⟩

/-- Witness for C5: status 404 with body `oops`. -/
theorem postArk_non2xx_no_parse_witness :
    postArkHandleResponse (fun _ => some JVal.null) 404 "oops" =
      .error "模型请求失败：404 oops" ∧
    postArkHandleResponse (fun _ => some JVal.null) 404 "oops" =
      postArkHandleResponse (fun _ => none) 404 "oops" :=
  postArk_non2xx_no_parse (fun _ => some JVal.null) (fun _ => none) 404 "oops"
    (Or.inr (by decide))


/-!  ## Claim C1 — the extractor against the spec description -/

theorem outputItemTexts_of_good (item : JVal) (h : goodItem item = true) :
    outputItemTexts item = some (specOutputItemTexts item) := by
  unfold goodItem at h
  unfold outputItemTexts specOutputItemTexts
  rcases hg : getField item "content" with _ | c
  · rfl
  · rw [hg] at h
    cases c with
    | null => simp [truthy]
    | bool b =>
      have hb : b = false := by simpa [truthy] using h
      subst hb
      simp [truthy]
    | num n =>
      have hn : n = 0 := by simpa [truthy] using h
      subst hn
      simp [truthy]
    | str s =>
      have hs : s = "" := by simpa [truthy] using h
      subst hs
      simp [truthy]
    | arr cs => simp [truthy]
    | obj fs => simp [truthy] at h

theorem mapM_outputItemTexts_of_good (items : List JVal)
    (h : items.all goodItem = true) :
    items.mapM outputItemTexts = some (items.map specOutputItemTexts) := by
  induction items with
  | nil => rfl
  | cons x xs ih =>
    rw [List.all_cons, Bool.and_eq_true] at h
    rw [List.mapM_cons, outputItemTexts_of_good x h.1, ih h.2]
    rfl

theorem extractCandidates_of_good (d : JVal) (h : goodOutput d = true) :
    extractCandidates d = some (specFragments d) := by
  unfold goodOutput at h
  unfold extractCandidates specFragments
  rcases hg : getField d "output" with _ | c
  · simp only [hg]
    rfl
  · rw [hg] at h
    cases c with
    | arr items =>
      simp only [hg, mapM_outputItemTexts_of_good items h, Option.map_some']
    | null => simp only [hg]; rfl
    | bool b => simp only [hg]; rfl
    | num n => simp only [hg]; rfl
    | str s => simp only [hg]; rfl
    | obj fs => simp only [hg]; rfl

theorem extract_eq_spec_of_good (d : JVal) (h : goodOutput d = true) :
    extractTextFromResponse d = some (specExtractText d) := by
  unfold extractTextFromResponse specExtractText
  rw [extractCandidates_of_good d h]
  rfl

/-- Counterexample to claim C1 as stated: the JSON object
`{"output":[{"content":1}]}` contains none of the three text-bearing fields,
so the claim demands the empty string, but the extractor returns no string at
all: it throws a TypeError calling `forEach` on the number `1`. -/
theorem extract_not_total :
    extractTextFromResponse
        (JVal.obj [("output", JVal.arr [JVal.obj [("content", JVal.num 1)]])]) = none := rfl

/-- Claim C1 (amended): for every JSON object on which the extractor does not
throw — every entry of the `output` array has a `content` field that is
absent, falsy or an array — the result is the concatenation of all found
fragments in the order output_text, output[].content[].text,
choices[].message.content, joined by a line break and trimmed; when no
fragment is found the result is the empty string; in particular the input
`{"choices":[{"message":{"content":"hello"}}]}` yields `"hello"`.  (On an
`output` entry whose `content` is truthy but not an array the extractor
throws a TypeError instead of returning a string.) -/
theorem extract_matches_spec :
    (∀ d, goodOutput d = true → extractTextFromResponse d = some (specExtractText d)) ∧
    extractTextFromResponse
        (JVal.obj [("choices",
          JVal.arr [JVal.obj [("message", JVal.obj [("content", JVal.str "hello")])]])]) =
      some "hello" ∧
    (∀ d, goodOutput d = true → specFragments d = [] →
      extractTextFromResponse d = some "") := by
  refine ⟨extract_eq_spec_of_good, rfl, ?_⟩
  intro d h hf
  rw [extract_eq_spec_of_good d h]
  unfold specExtractText
  rw [hf]
  rfl

/-- Witness for C1 (amended) at concrete inputs. -/
theorem extract_matches_spec_witness :
    extractTextFromResponse (JVal.obj []) = some (specExtractText (JVal.obj [])) ∧
    extractTextFromResponse (JVal.obj [("output", JVal.arr [])]) = some "" :=
  ⟨extract_matches_spec.1 (JVal.obj []) rfl,
   extract_matches_spec.2.2 (JVal.obj [("output", JVal.arr [])]) rfl rfl⟩

/-!  ## Claim C6 — idempotence of the extractor -/

theorem extract_str_eq (s : String) : extractTextFromResponse (JVal.str s) = some "" := rfl

/-- Counterexample to claim C6: at `{"choices":[{"message":{"content":"hello"}}]}`
the extractor yields `"hello"`, but applying the extractor to its own result
(the string `"hello"`) yields `""`, so double extraction differs from single
extraction. -/
theorem extract_not_idempotent :
    extractTwice
        (JVal.obj [("choices",
          JVal.arr [JVal.obj [("message", JVal.obj [("content", JVal.str "hello")])]])]) ≠
      extractTextFromResponse
        (JVal.obj [("choices",
          JVal.arr [JVal.obj [("message", JVal.obj [("content", JVal.str "hello")])]])]) := by
  intro h
  rw [show extractTwice
      (JVal.obj [("choices",
        JVal.arr [JVal.obj [("message", JVal.obj [("content", JVal.str "hello")])]])]) =
      some "" from rfl] at h
  rw [show extractTextFromResponse
      (JVal.obj [("choices",
        JVal.arr [JVal.obj [("message", JVal.obj [("content", JVal.str "hello")])]])]) =
      some "hello" from rfl] at h
  simp at h

/-- Claim C6 (amended): the extractor maps every plain string to the empty
string, so double extraction yields the empty string whenever the first
extraction returns; idempotence holds exactly when the first extraction
throws or yields the empty string. -/
theorem extract_double_collapses (d : JVal) :
    extractTwice d = (extractTextFromResponse d).map (fun _ => "") ∧
    (extractTwice d = extractTextFromResponse d ↔
      extractTextFromResponse d = none ∨ extractTextFromResponse d = some "") := by
  rcases h : extractTextFromResponse d with _ | r
  · simp [extractTwice, h]
  · constructor
    · simp [extractTwice, h, extract_str_eq]
    · simp only [extractTwice, h, Option.some_bind, extract_str_eq]
      constructor
      · intro he
        exact Or.inr he.symm
      · rintro (he | he)
        · cases he
        · rw [Option.some_inj.mp he]

/-!  ## Lemmas about the per-image vision loop of `src/server.js` -/

theorem visionLoop_ok (ark : Nat → Except String JVal) (m p : String) :
    ∀ (images : List JVal) (i0 : Nat),
      (∀ j, j < images.length → callOk ark (i0 + j)) →
      ((visionLoop ark m p images i0).1.map (fun c => c.step) =
        (List.range images.length).map (fun j => some ("vision_" ++ toString (i0 + j + 1)))) ∧
      ∃ rs, (visionLoop ark m p images i0).2 = Except.ok rs ∧ rs.length = images.length := by
  intro images
  induction images with
  | nil =>
    intro i0 h
    exact ⟨rfl, [], rfl, rfl⟩
  | cons img rest ih =>
    intro i0 h
    obtain ⟨v, r, hv, hr⟩ := h 0 (Nat.succ_pos rest.length)
    rw [Nat.add_zero] at hv
    have hrest : ∀ j, j < rest.length → callOk ark (i0 + 1 + j) := by
      intro j hj
      have := h (j + 1) (Nat.succ_lt_succ hj)
      rwa [show i0 + (j + 1) = i0 + 1 + j by omega] at this
    obtain ⟨ih1, rs, ih2, ih3⟩ := ih (i0 + 1) hrest
    rcases hvl : visionLoop ark m p rest (i0 + 1) with ⟨calls, res⟩
    rw [hvl] at ih1 ih2
    dsimp only at ih1 ih2
    simp only [visionLoop, hv, hr, hvl]
    refine ⟨?_, ?_⟩
    · simp only [List.length_cons, List.range_succ_eq_map, List.map_cons, List.map_map]
      refine congrArg₂ List.cons rfl ?_
      rw [ih1]
      refine List.map_congr_left fun j _ => ?_
      simp only [Function.comp]
      rw [show i0 + (j + 1) + 1 = i0 + 1 + j + 1 by omega]
    · rw [ih2]
      exact ⟨visionBlock i0 r :: rs, rfl, by simp [ih3]⟩

theorem visionLoop_all_vision (ark : Nat → Except String JVal) (m p : String) :
    ∀ (images : List JVal) (i0 : Nat),
      ∀ c ∈ (visionLoop ark m p images i0).1,
        ∃ k : Nat, c.step = some ("vision_" ++ toString k) := by
  intro images
  induction images with
  | nil => intro i0 c hc; cases hc
  | cons img rest ih =>
    intro i0 c hc
    simp only [visionLoop] at hc
    rcases hv : ark i0 with e | resp
    · rw [hv] at hc
      dsimp only at hc
      rcases List.mem_singleton.mp hc with rfl
      exact ⟨i0 + 1, rfl⟩
    · rw [hv] at hc
      dsimp only at hc
      rcases hx : extractTextFromResponse resp with _ | t
      · rw [hx] at hc
        dsimp only at hc
        rcases List.mem_singleton.mp hc with rfl
        exact ⟨i0 + 1, rfl⟩
      · rw [hx] at hc
        rcases hvl : visionLoop ark m p rest (i0 + 1) with ⟨calls, res⟩
        rw [hvl] at hc
        dsimp only at hc
        rcases List.mem_cons.mp hc with rfl | hmem
        · exact ⟨i0 + 1, rfl⟩
        · have := ih (i0 + 1) c
          rw [hvl] at this
          exact this hmem

theorem visionLoop_fail (ark : Nat → Except String JVal) (m p : String) :
    ∀ (images : List JVal) (i0 : Nat),
      (∃ j, j < images.length ∧ ¬ callOk ark (i0 + j)) →
      ∃ e, (visionLoop ark m p images i0).2 = Except.error e := by
  intro images
  induction images with
  | nil =>
    rintro i0 ⟨j, hj, -⟩
    cases Nat.not_lt_zero j hj
  | cons img rest ih =>
    rintro i0 ⟨j, hj, hbad⟩
    rcases hv : ark i0 with e | resp
    · exact ⟨e, by simp only [visionLoop, hv]⟩
    · rcases hx : extractTextFromResponse resp with _ | t
      · exact ⟨forEachTypeErrorMsg, by simp only [visionLoop, hv, hx]⟩
      · have hok0 : callOk ark i0 := ⟨resp, t, hv, hx⟩
        rcases j with _ | j'
        · rw [Nat.add_zero] at hbad
          exact absurd hok0 hbad
        · have hbad' : ∃ j, j < rest.length ∧ ¬ callOk ark (i0 + 1 + j) := by
            refine ⟨j', Nat.lt_of_succ_lt_succ hj, ?_⟩
            rwa [show i0 + 1 + j' = i0 + (j' + 1) by omega]
          obtain ⟨e, he⟩ := ih (i0 + 1) hbad'
          refine ⟨e, ?_⟩
          simp only [visionLoop, hv, hx]
          rw [he]
          rfl

/-!  ## Claim C3 — number of vision-stage calls -/

/-- Claim C3: for a well-formed request within bounds whose model calls all
settle successfully, `src/server.js` issues exactly one vision call per image
(labeled `vision_1 … vision_n` in input order) followed by the single
reasoning call (`thinking`), and `src/api/analyze.js` issues exactly one
batched vision call (carrying every image) followed by the single reasoning
call. -/
theorem vision_call_counts :
    (∀ (apiKey : String) (cfg : ServerConfig) (body : JVal)
        (ark : Nat → Except String JVal),
      apiKey ≠ "" →
      5 ≤ (imagesOf body).length → (imagesOf body).length ≤ 9 →
      serverVisionModel cfg body ≠ "" → serverThinkingModel cfg body ≠ "" →
      (∀ j, j < (imagesOf body).length → callOk ark j) →
      (handleAnalyzeServer apiKey cfg (Except.ok body) ark).calls.map (fun c => c.step) =
        (List.range (imagesOf body).length).map
          (fun j => some ("vision_" ++ toString (j + 1))) ++ [some "thinking"]) ∧
    (∀ (cfg : ApiConfig) (body : JVal) (ark : Nat → Except String JVal),
      jsTrim cfg.envApiKey ≠ "" →
      apiVisionModel cfg.envVisionModel cfg.envModel ≠ "" →
      apiThinkingModel cfg.envThinkingModel
        (apiVisionModel cfg.envVisionModel cfg.envModel) ≠ "" →
      2 ≤ (imagesOf body).length → (imagesOf body).length ≤ 9 →
      callOk ark 0 →
      ∃ combined : String,
        (handleAnalyzeApi "POST" cfg (Except.ok body) ark).calls =
          [⟨apiVisionModel cfg.envVisionModel cfg.envModel,
            (imagesOf body).map ContentPart.inputImage ++
              [ContentPart.inputText (apiVisionContentText (apiVisionPrompt cfg body))],
            none⟩,
           ⟨apiThinkingModel cfg.envThinkingModel
              (apiVisionModel cfg.envVisionModel cfg.envModel),
            [ContentPart.inputText combined], none⟩]) := by
  constructor
  · intro apiKey cfg body ark hkey h5 h9 hvm htm hcalls
    have hcalls0 : ∀ j, j < (imagesOf body).length → callOk ark (0 + j) := by
      intro j hj
      rw [Nat.zero_add]
      exact hcalls j hj
    obtain ⟨h1, rs, h2, -⟩ :=
      visionLoop_ok ark (serverVisionModel cfg body) (serverVisionPrompt body)
        (imagesOf body) 0 hcalls0
    have hbound : ¬((imagesOf body).length < 5 ∨ 9 < (imagesOf body).length) := by omega
    have hmodel : ¬(serverVisionModel cfg body = "" ∨ serverThinkingModel cfg body = "") := by
      rintro (h | h)
      · exact hvm h
      · exact htm h
    have hrange :
        (List.range (imagesOf body).length).map
            (fun j => some ("vision_" ++ toString (0 + j + 1))) =
          (List.range (imagesOf body).length).map
            (fun j => some ("vision_" ++ toString (j + 1))) :=
      List.map_congr_left fun j _ => by rw [Nat.zero_add]
    rw [hrange] at h1
    rcases hvl : visionLoop ark (serverVisionModel cfg body) (serverVisionPrompt body)
        (imagesOf body) 0 with ⟨vcalls, res⟩
    rw [hvl] at h1 h2
    dsimp only at h1 h2
    unfold handleAnalyzeServer
    simp only [if_neg hkey, if_neg hbound, if_neg hmodel, hvl, h2]
    rcases hark : ark (imagesOf body).length with e | resp
    · simp only [hark, List.map_append, h1]
      rfl
    · rcases hx : extractTextFromResponse resp with _ | t <;>
        · simp only [hark, hx, List.map_append, h1]
          rfl
  · intro cfg body ark hkey hvm htm h2b h9b hok
    obtain ⟨v, r, hv, hr⟩ := hok
    have hbound : ¬((imagesOf body).length < 2 ∨ 9 < (imagesOf body).length) := by omega
    have hmodel : ¬(apiVisionModel cfg.envVisionModel cfg.envModel = "" ∨
        apiThinkingModel cfg.envThinkingModel
          (apiVisionModel cfg.envVisionModel cfg.envModel) = "") := by
      rintro (h | h)
      · exact hvm h
      · exact htm h
    unfold handleAnalyzeApi
    simp only [if_neg (show ¬("POST" : String) ≠ "POST" by simp), if_neg hkey,
      if_neg hmodel, if_neg hbound, hv, hr]
    rcases hark : ark 1 with e | resp2
    · simp only [hark]
      exact ⟨_, rfl⟩
    · rcases hx : extractTextFromResponse resp2 with _ | t
      · simp only [hark, hx]
        exact ⟨_, rfl⟩
      · simp only [hark, hx]
        exact ⟨_, rfl⟩

/-- Witness for C3: a concrete five-image request to the standalone server
and a concrete two-image request to the serverless handler, all calls
succeeding. -/
theorem vision_call_counts_witness :
    (handleAnalyzeServer "k" ⟨"m", "", ""⟩
        (Except.ok (JVal.obj [("images",
          JVal.arr [JVal.str "a", JVal.str "b", JVal.str "c", JVal.str "d", JVal.str "e"])]))
        (fun _ => Except.ok (JVal.obj [("output_text", JVal.str "desc")]))).calls.map
        (fun c => c.step) =
      (List.range 5).map (fun j => some ("vision_" ++ toString (j + 1))) ++
        [some "thinking"] ∧
    ∃ combined : String,
      (handleAnalyzeApi "POST" ⟨"k", "m", "", "", "vp", "tp"⟩
          (Except.ok (JVal.obj [("images", JVal.arr [JVal.str "a", JVal.str "b"])]))
          (fun _ => Except.ok (JVal.obj [("output_text", JVal.str "desc")]))).calls =
        [⟨"m", [JVal.str "a", JVal.str "b"].map ContentPart.inputImage ++
            [ContentPart.inputText (apiVisionContentText "vp")], none⟩,
         ⟨"m", [ContentPart.inputText combined], none⟩] := by
  constructor
  · have h5 : 5 ≤ (imagesOf (JVal.obj [("images",
        JVal.arr [JVal.str "a", JVal.str "b", JVal.str "c", JVal.str "d",
          JVal.str "e"])])).length := by decide
    exact vision_call_counts.1 "k" ⟨"m", "", ""⟩
      (JVal.obj [("images",
        JVal.arr [JVal.str "a", JVal.str "b", JVal.str "c", JVal.str "d", JVal.str "e"])])
      (fun _ => Except.ok (JVal.obj [("output_text", JVal.str "desc")]))
      (by decide) h5 (by decide) (by decide) (by decide)
      (fun j _ => ⟨JVal.obj [("output_text", JVal.str "desc")], "desc", rfl, rfl⟩)
  · obtain ⟨combined, hc⟩ := vision_call_counts.2 ⟨"k", "m", "", "", "vp", "tp"⟩
      (JVal.obj [("images", JVal.arr [JVal.str "a", JVal.str "b"])])
      (fun _ => Except.ok (JVal.obj [("output_text", JVal.str "desc")]))
      (by decide) (by decide) (by decide) (by decide) (by decide)
      ⟨JVal.obj [("output_text", JVal.str "desc")], "desc", rfl, rfl⟩
    rw [show apiVisionPrompt ⟨"k", "m", "", "", "vp", "tp"⟩
        (JVal.obj [("images", JVal.arr [JVal.str "a", JVal.str "b"])]) = "vp" from rfl]
      at hc
    exact ⟨combined, hc⟩

/-!  ## Shared lemmas about the bound check and call shapes -/

theorem imagesOf_eq_nil_of_not_array (body : JVal) (h : imagesIsArray body = false) :
    imagesOf body = [] := by
  unfold imagesIsArray at h
  unfold imagesOf
  rcases hg : getField body "images" with _ | v
  · rfl
  · rw [hg] at h
    cases v with
    | arr l => cases h
    | null => rfl
    | bool b => rfl
    | num n => rfl
    | str s => rfl
    | obj fs => rfl

theorem handleAnalyzeServer_bound_reject (apiKey : String) (cfg : ServerConfig)
    (body : JVal) (ark : Nat → Except String JVal) (hkey : apiKey ≠ "")
    (hb : (imagesOf body).length < 5 ∨ 9 < (imagesOf body).length) :
    handleAnalyzeServer apiKey cfg (Except.ok body) ark =
      ⟨[], 400, errObj "请上传 5-9 张截图"⟩ := by
  unfold handleAnalyzeServer
  simp only [if_neg hkey, if_pos hb]

theorem handleAnalyzeApi_bound_reject (cfg : ApiConfig) (body : JVal)
    (ark : Nat → Except String JVal)
    (hkey : jsTrim cfg.envApiKey ≠ "")
    (hvm : apiVisionModel cfg.envVisionModel cfg.envModel ≠ "")
    (htm : apiThinkingModel cfg.envThinkingModel
      (apiVisionModel cfg.envVisionModel cfg.envModel) ≠ "")
    (hb : (imagesOf body).length < 2 ∨ 9 < (imagesOf body).length) :
    handleAnalyzeApi "POST" cfg (Except.ok body) ark =
      ⟨[], 400, errObj "请上传 2-9 张截图"⟩ := by
  have hmodel : ¬(apiVisionModel cfg.envVisionModel cfg.envModel = "" ∨
      apiThinkingModel cfg.envThinkingModel
        (apiVisionModel cfg.envVisionModel cfg.envModel) = "") := by
    rintro (h | h)
    · exact hvm h
    · exact htm h
  unfold handleAnalyzeApi
  simp only [if_neg (show ¬("POST" : String) ≠ "POST" by simp), if_neg hkey,
    if_neg hmodel, if_pos hb]

theorem handleAnalyzeCombined_bound_reject (cfg : CombinedConfig) (body : JVal)
    (ark : Nat → Except String JVal)
    (hkey : jsTrim cfg.envApiKey ≠ "")
    (hvm : apiVisionModel cfg.envVisionModel cfg.envModel ≠ "")
    (htm : apiThinkingModel cfg.envThinkingModel
      (apiVisionModel cfg.envVisionModel cfg.envModel) ≠ "")
    (hb : (imagesOf body).length < 2 ∨ 9 < (imagesOf body).length) :
    handleAnalyzeCombined "POST" cfg (Except.ok body) ark =
      ⟨[], 400, errObj "请上传 2-9 张截图"⟩ := by
  have hmodel : ¬(apiVisionModel cfg.envVisionModel cfg.envModel = "" ∨
      apiThinkingModel cfg.envThinkingModel
        (apiVisionModel cfg.envVisionModel cfg.envModel) = "") := by
    rintro (h | h)
    · exact hvm h
    · exact htm h
  unfold handleAnalyzeCombined
  simp only [if_neg (show ¬("POST" : String) ≠ "POST" by simp), if_neg hkey,
    if_neg hmodel, if_pos hb]

/-!  ## Claim C2 — out-of-bounds image count rejected with no outbound call -/

/-- Claim C2: a request whose image count is outside the configured bound
(5–9 for the standalone server, 2–9 for the serverless handlers) receives a
400 response with the bound-violation error message and zero outbound calls
are issued. -/
theorem bound_violation_rejected :
    (∀ (apiKey : String) (cfg : ServerConfig) (body : JVal)
        (ark : Nat → Except String JVal),
      apiKey ≠ "" →
      ((imagesOf body).length < 5 ∨ 9 < (imagesOf body).length) →
      handleAnalyzeServer apiKey cfg (Except.ok body) ark =
        ⟨[], 400, errObj "请上传 5-9 张截图"⟩) ∧
    (∀ (cfg : ApiConfig) (body : JVal) (ark : Nat → Except String JVal),
      jsTrim cfg.envApiKey ≠ "" →
      apiVisionModel cfg.envVisionModel cfg.envModel ≠ "" →
      apiThinkingModel cfg.envThinkingModel
        (apiVisionModel cfg.envVisionModel cfg.envModel) ≠ "" →
      ((imagesOf body).length < 2 ∨ 9 < (imagesOf body).length) →
      handleAnalyzeApi "POST" cfg (Except.ok body) ark =
        ⟨[], 400, errObj "请上传 2-9 张截图"⟩) ∧
    (∀ (cfg : CombinedConfig) (body : JVal) (ark : Nat → Except String JVal),
      jsTrim cfg.envApiKey ≠ "" →
      apiVisionModel cfg.envVisionModel cfg.envModel ≠ "" →
      apiThinkingModel cfg.envThinkingModel
        (apiVisionModel cfg.envVisionModel cfg.envModel) ≠ "" →
      ((imagesOf body).length < 2 ∨ 9 < (imagesOf body).length) →
      handleAnalyzeCombined "POST" cfg (Except.ok body) ark =
        ⟨[], 400, errObj "请上传 2-9 张截图"⟩) :=
  ⟨handleAnalyzeServer_bound_reject, handleAnalyzeApi_bound_reject,
   handleAnalyzeCombined_bound_reject⟩

/-- Witness for C2: the spec example — a one-image request under the 2–9
bound gets 400 with the bound-violation message and no outbound call; a
four-image request under the 5–9 bound likewise. -/
theorem bound_violation_rejected_witness :
    handleAnalyzeApi "POST" ⟨"k", "m", "", "", "vp", "tp"⟩
        (Except.ok (JVal.obj [("images", JVal.arr [JVal.str "a"])]))
        (fun _ => Except.error "never called") =
      ⟨[], 400, errObj "请上传 2-9 张截图"⟩ ∧
    handleAnalyzeServer "k" ⟨"m", "", ""⟩
        (Except.ok (JVal.obj [("images",
          JVal.arr [JVal.str "a", JVal.str "b", JVal.str "c", JVal.str "d"])]))
        (fun _ => Except.error "never called") =
      ⟨[], 400, errObj "请上传 5-9 张截图"⟩ :=
  ⟨bound_violation_rejected.2.1 ⟨"k", "m", "", "", "vp", "tp"⟩
      (JVal.obj [("images", JVal.arr [JVal.str "a"])])
      (fun _ => Except.error "never called")
      (by decide) (by decide) (by decide) (by decide),
   bound_violation_rejected.1 "k" ⟨"m", "", ""⟩
      (JVal.obj [("images",
        JVal.arr [JVal.str "a", JVal.str "b", JVal.str "c", JVal.str "d"])])
      (fun _ => Except.error "never called")
      (by decide) (by decide)⟩

/-!  ## Claim C8 — missing or non-array images field -/

/-- Claim C8: when the request body has no `images` array (missing field or a
non-array value) the handlers treat the image list as empty, so the request is
rejected with the 400 bound-violation error (not a malformed-body error) and
no outbound call is made. -/
theorem images_not_array_treated_empty :
    (∀ (apiKey : String) (cfg : ServerConfig) (body : JVal)
        (ark : Nat → Except String JVal),
      apiKey ≠ "" → imagesIsArray body = false →
      imagesOf body = [] ∧
      handleAnalyzeServer apiKey cfg (Except.ok body) ark =
        ⟨[], 400, errObj "请上传 5-9 张截图"⟩) ∧
    (∀ (cfg : ApiConfig) (body : JVal) (ark : Nat → Except String JVal),
      jsTrim cfg.envApiKey ≠ "" →
      apiVisionModel cfg.envVisionModel cfg.envModel ≠ "" →
      apiThinkingModel cfg.envThinkingModel
        (apiVisionModel cfg.envVisionModel cfg.envModel) ≠ "" →
      imagesIsArray body = false →
      imagesOf body = [] ∧
      handleAnalyzeApi "POST" cfg (Except.ok body) ark =
        ⟨[], 400, errObj "请上传 2-9 张截图"⟩) := by
  constructor
  · intro apiKey cfg body ark hkey harr
    have hnil := imagesOf_eq_nil_of_not_array body harr
    exact ⟨hnil, handleAnalyzeServer_bound_reject apiKey cfg body ark hkey
      (Or.inl (by rw [hnil]; decide))⟩
  · intro cfg body ark hkey hvm htm harr
    have hnil := imagesOf_eq_nil_of_not_array body harr
    exact ⟨hnil, handleAnalyzeApi_bound_reject cfg body ark hkey hvm htm
      (Or.inl (by rw [hnil]; decide))⟩

/-- Witness for C8: a body whose `images` field is a string. -/
theorem images_not_array_treated_empty_witness :
    imagesOf (JVal.obj [("images", JVal.str "nope")]) = [] ∧
    handleAnalyzeServer "k" ⟨"m", "", ""⟩
        (Except.ok (JVal.obj [("images", JVal.str "nope")]))
        (fun _ => Except.error "never called") =
      ⟨[], 400, errObj "请上传 5-9 张截图"⟩ :=
  images_not_array_treated_empty.1 "k" ⟨"m", "", ""⟩
    (JVal.obj [("images", JVal.str "nope")])
    (fun _ => Except.error "never called") (by decide) (by decide)

/-!  ## Shape lemmas for claim C4 -/

theorem vision_label_ne_thinking (k : Nat) : ("vision_" ++ toString k) ≠ "thinking" := by
  intro h
  have hd := congrArg String.data h
  rw [String.data_append] at hd
  rw [show ("vision_" : String).data = 'v' :: ("ision_" : String).data from rfl] at hd
  rw [show ("thinking" : String).data = 't' :: ("hinking" : String).data from rfl] at hd
  rw [List.cons_append] at hd
  injection hd with h1 h2
  exact absurd h1 (by decide)

theorem handleAnalyzeServer_shape (apiKey : String) (cfg : ServerConfig)
    (bodyResult : Except String JVal) (ark : Nat → Except String JVal) :
    ((handleAnalyzeServer apiKey cfg bodyResult ark).calls = [] ∧
      (handleAnalyzeServer apiKey cfg bodyResult ark).status ≠ 200) ∨
    (∃ body, bodyResult = Except.ok body ∧
      ((∃ e, (visionLoop ark (serverVisionModel cfg body) (serverVisionPrompt body)
            (imagesOf body) 0).2 = Except.error e ∧
          (handleAnalyzeServer apiKey cfg bodyResult ark).calls =
            (visionLoop ark (serverVisionModel cfg body) (serverVisionPrompt body)
              (imagesOf body) 0).1 ∧
          (handleAnalyzeServer apiKey cfg bodyResult ark).status = 500) ∨
       (∃ rs combined,
         (visionLoop ark (serverVisionModel cfg body) (serverVisionPrompt body)
            (imagesOf body) 0).2 = Except.ok rs ∧
         (handleAnalyzeServer apiKey cfg bodyResult ark).calls =
           (visionLoop ark (serverVisionModel cfg body) (serverVisionPrompt body)
              (imagesOf body) 0).1 ++
             [⟨serverThinkingModel cfg body, [ContentPart.inputText combined],
               some "thinking"⟩]))) := by
  by_cases hkey : apiKey = ""
  · left
    have h : handleAnalyzeServer apiKey cfg bodyResult ark =
        ⟨[], 500, errObj "未找到 ARK_API_KEY，请检查 API key.txt"⟩ := by
      unfold handleAnalyzeServer
      rw [if_pos hkey]
    rw [h]
    exact ⟨rfl, by simp⟩
  · rcases bodyResult with msg | body
    · left
      have h : handleAnalyzeServer apiKey cfg (Except.error msg) ark =
          ⟨[], 400, errObj msg⟩ := by
        unfold handleAnalyzeServer
        rw [if_neg hkey]
      rw [h]
      exact ⟨rfl, by simp⟩
    · by_cases hbound : (imagesOf body).length < 5 ∨ 9 < (imagesOf body).length
      · left
        rw [handleAnalyzeServer_bound_reject apiKey cfg body ark hkey hbound]
        exact ⟨rfl, by simp⟩
      · by_cases hmodel : serverVisionModel cfg body = "" ∨ serverThinkingModel cfg body = ""
        · left
          have h : handleAnalyzeServer apiKey cfg (Except.ok body) ark =
              ⟨[], 400, errObj "模型参数缺失，请在 API key.txt 中配置 model"⟩ := by
            unfold handleAnalyzeServer
            simp only [if_neg hkey, if_neg hbound, if_pos hmodel]
          rw [h]
          exact ⟨rfl, by simp⟩
        · right
          refine ⟨body, rfl, ?_⟩
          rcases hvl : visionLoop ark (serverVisionModel cfg body) (serverVisionPrompt body)
              (imagesOf body) 0 with ⟨vcalls, res⟩
          rcases res with e | rs
          · left
            refine ⟨e, rfl, ?_, ?_⟩ <;>
              · unfold handleAnalyzeServer
                simp only [if_neg hkey, if_neg hbound, if_neg hmodel, hvl]
          · right
            refine ⟨rs,
              (if serverThinkingPrompt body = "" then "请给出游戏分析。"
                else serverThinkingPrompt body) ++
                "\n\n以下是游戏截图的视觉解析结果：\n" ++ String.intercalate "\n\n" rs,
              rfl, ?_⟩
            unfold handleAnalyzeServer
            simp only [if_neg hkey, if_neg hbound, if_neg hmodel, hvl]
            rcases hark : ark (imagesOf body).length with e2 | resp
            · simp only [hark]
            · rcases hx : extractTextFromResponse resp with _ | t <;> simp only [hark, hx]

theorem handleAnalyzeApi_shape (method : String) (cfg : ApiConfig)
    (bodyResult : Except String JVal) (ark : Nat → Except String JVal) :
    ((handleAnalyzeApi method cfg bodyResult ark).calls = [] ∧
      (handleAnalyzeApi method cfg bodyResult ark).status ≠ 200) ∨
    (∃ vcall, hasImagePart vcall = true ∧
      (((handleAnalyzeApi method cfg bodyResult ark).calls = [vcall] ∧
        (handleAnalyzeApi method cfg bodyResult ark).status = 500) ∨
       (callOk ark 0 ∧ ∃ tcall,
         (handleAnalyzeApi method cfg bodyResult ark).calls = [vcall, tcall]))) := by
  by_cases hm : method ≠ "POST"
  · left
    have h : handleAnalyzeApi method cfg bodyResult ark =
        ⟨[], 405, errObj "Method Not Allowed"⟩ := by
      unfold handleAnalyzeApi
      rw [if_pos hm]
    rw [h]
    exact ⟨rfl, by simp⟩
  · by_cases hkey : jsTrim cfg.envApiKey = ""
    · left
      have h : handleAnalyzeApi method cfg bodyResult ark =
          ⟨[], 500, errObj "未配置 ARK_API_KEY"⟩ := by
        unfold handleAnalyzeApi
        simp only [if_neg hm, if_pos hkey]
      rw [h]
      exact ⟨rfl, by simp⟩
    · by_cases hmodel : apiVisionModel cfg.envVisionModel cfg.envModel = "" ∨
          apiThinkingModel cfg.envThinkingModel
            (apiVisionModel cfg.envVisionModel cfg.envModel) = ""
      · left
        have h : handleAnalyzeApi method cfg bodyResult ark =
            ⟨[], 500, errObj "未配置模型 ID（ARK_MODEL/ARK_VISION_MODEL）"⟩ := by
          unfold handleAnalyzeApi
          simp only [if_neg hm, if_neg hkey, if_pos hmodel]
        rw [h]
        exact ⟨rfl, by simp⟩
      · rcases bodyResult with msg | body
        · left
          have h : handleAnalyzeApi method cfg (Except.error msg) ark =
              ⟨[], 400, errObj msg⟩ := by
            unfold handleAnalyzeApi
            simp only [if_neg hm, if_neg hkey, if_neg hmodel]
          rw [h]
          exact ⟨rfl, by simp⟩
        · by_cases hbound : (imagesOf body).length < 2 ∨ 9 < (imagesOf body).length
          · left
            have h : handleAnalyzeApi method cfg (Except.ok body) ark =
                ⟨[], 400, errObj "请上传 2-9 张截图"⟩ := by
              unfold handleAnalyzeApi
              simp only [if_neg hm, if_neg hkey, if_neg hmodel, if_pos hbound]
            rw [h]
            exact ⟨rfl, by simp⟩
          · have h2 : 2 ≤ (imagesOf body).length := by omega
            have himg : hasImagePart
                ⟨apiVisionModel cfg.envVisionModel cfg.envModel,
                 (imagesOf body).map ContentPart.inputImage ++
                   [ContentPart.inputText (apiVisionContentText (apiVisionPrompt cfg body))],
                 none⟩ = true := by
              rcases hi : imagesOf body with _ | ⟨a, tl⟩
              · rw [hi] at h2
                simp at h2
              · simp [hasImagePart, hi]
            right
            refine ⟨_, himg, ?_⟩
            unfold handleAnalyzeApi
            simp only [if_neg hm, if_neg hkey, if_neg hmodel, if_neg hbound]
            rcases hark : ark 0 with e | resp
            · left
              constructor <;> simp only [hark]
            · rcases hx : extractTextFromResponse resp with _ | vt
              · left
                constructor <;> simp only [hark, hx]
              · refine Or.inr ⟨⟨resp, vt, hark, hx⟩, ?_⟩
                simp only [hark, hx]
                rcases hark2 : ark 1 with e2 | resp2
                · simp only [hark2]
                  exact ⟨_, rfl⟩
                · rcases hx2 : extractTextFromResponse resp2 with _ | t
                  · simp only [hark2, hx2]
                    exact ⟨_, rfl⟩
                  · simp only [hark2, hx2]
                    exact ⟨_, rfl⟩

/-!  ## Claim C4 — the reasoning stage is strictly sequenced after vision -/

/-- Claim C4: in every execution, every outbound call except possibly the
last is a vision-stage call, so the reasoning-stage call (when issued) comes
only after every vision-stage call has completed; and if any vision-stage
call fails (network failure or extraction throw) the reasoning-stage call is
never issued and the request does not succeed — there is no retry.  For the
batched handler the same holds: at most two calls, every non-final call
carries the images, and a failing batched vision call leaves at most that one
call and a non-200 status. -/
theorem reasoning_strictly_after_vision :
    (∀ (apiKey : String) (cfg : ServerConfig) (bodyResult : Except String JVal)
        (ark : Nat → Except String JVal),
      ∀ c ∈ (handleAnalyzeServer apiKey cfg bodyResult ark).calls.dropLast,
        ∃ k : Nat, c.step = some ("vision_" ++ toString k)) ∧
    (∀ (apiKey : String) (cfg : ServerConfig) (body : JVal)
        (ark : Nat → Except String JVal),
      (∃ j, j < (imagesOf body).length ∧ ¬ callOk ark j) →
      (∀ c ∈ (handleAnalyzeServer apiKey cfg (Except.ok body) ark).calls,
        c.step ≠ some "thinking") ∧
      (handleAnalyzeServer apiKey cfg (Except.ok body) ark).status ≠ 200) ∧
    (∀ (method : String) (cfg : ApiConfig) (bodyResult : Except String JVal)
        (ark : Nat → Except String JVal),
      (handleAnalyzeApi method cfg bodyResult ark).calls.length ≤ 2 ∧
      ∀ c ∈ (handleAnalyzeApi method cfg bodyResult ark).calls.dropLast,
        hasImagePart c = true) ∧
    (∀ (method : String) (cfg : ApiConfig) (bodyResult : Except String JVal)
        (ark : Nat → Except String JVal),
      ¬ callOk ark 0 →
      (handleAnalyzeApi method cfg bodyResult ark).calls.length ≤ 1 ∧
      (handleAnalyzeApi method cfg bodyResult ark).status ≠ 200) := by
  refine ⟨?_, ?_, ?_, ?_⟩
  · intro apiKey cfg bodyResult ark c hc
    rcases handleAnalyzeServer_shape apiKey cfg bodyResult ark with
      ⟨hnil, -⟩ | ⟨body, -, ⟨e, -, hcalls, -⟩ | ⟨rs, combined, -, hcalls⟩⟩
    · rw [hnil] at hc
      cases hc
    · rw [hcalls] at hc
      exact visionLoop_all_vision ark _ _ _ _ c (List.mem_of_mem_dropLast hc)
    · rw [hcalls, List.dropLast_concat] at hc
      exact visionLoop_all_vision ark _ _ _ _ c hc
  · intro apiKey cfg body ark hfail
    have hfail0 : ∃ j, j < (imagesOf body).length ∧ ¬ callOk ark (0 + j) := by
      obtain ⟨j, hj, hb⟩ := hfail
      exact ⟨j, hj, by rwa [Nat.zero_add]⟩
    obtain ⟨e0, he0⟩ := visionLoop_fail ark (serverVisionModel cfg body)
      (serverVisionPrompt body) (imagesOf body) 0 hfail0
    rcases handleAnalyzeServer_shape apiKey cfg (Except.ok body) ark with
      ⟨hnil, hst⟩ | ⟨body', hbe, hcase⟩
    · refine ⟨?_, hst⟩
      intro c hc
      rw [hnil] at hc
      cases hc
    · rw [Except.ok.injEq] at hbe
      subst hbe
      rcases hcase with ⟨e, -, hcalls, hst⟩ | ⟨rs, combined, hok, -⟩
      · refine ⟨?_, ?_⟩
        · intro c hc
          rw [hcalls] at hc
          obtain ⟨k, hk⟩ := visionLoop_all_vision ark _ _ _ _ c hc
          rw [hk]
          intro hcontra
          exact vision_label_ne_thinking k (Option.some.inj hcontra)
        · rw [hst]
          decide
      · rw [hok] at he0
        exact Except.noConfusion he0
  · intro method cfg bodyResult ark
    rcases handleAnalyzeApi_shape method cfg bodyResult ark with
      ⟨hnil, -⟩ | ⟨vcall, himg, ⟨hcalls, -⟩ | ⟨-, tcall, hcalls⟩⟩
    · rw [hnil]
      exact ⟨by simp, fun c hc => by cases hc⟩
    · rw [hcalls]
      exact ⟨by simp, fun c hc => by cases hc⟩
    · rw [hcalls]
      refine ⟨by simp, fun c hc => ?_⟩
      rw [show [vcall, tcall].dropLast = [vcall] from rfl] at hc
      rcases List.mem_singleton.mp hc with rfl
      exact himg
  · intro method cfg bodyResult ark hnok
    rcases handleAnalyzeApi_shape method cfg bodyResult ark with
      ⟨hnil, hst⟩ | ⟨vcall, -, ⟨hcalls, hst⟩ | ⟨hok, -⟩⟩
    · rw [hnil]
      exact ⟨by simp, hst⟩
    · rw [hcalls, hst]
      exact ⟨by simp, by simp⟩
    · exact absurd hok hnok

/-- Witness for C4: with an oracle that fails every call, a five-image
request to the standalone server issues no reasoning call and fails, and the
serverless handler stops after at most one call with a failure status. -/
theorem reasoning_strictly_after_vision_witness :
    ((∀ c ∈ (handleAnalyzeServer "k" ⟨"m", "", ""⟩
        (Except.ok (JVal.obj [("images",
          JVal.arr [JVal.str "a", JVal.str "b", JVal.str "c", JVal.str "d", JVal.str "e"])]))
        (fun _ => Except.error "boom")).calls,
      c.step ≠ some "thinking") ∧
      (handleAnalyzeServer "k" ⟨"m", "", ""⟩
        (Except.ok (JVal.obj [("images",
          JVal.arr [JVal.str "a", JVal.str "b", JVal.str "c", JVal.str "d", JVal.str "e"])]))
        (fun _ => Except.error "boom")).status ≠ 200) ∧
    ((handleAnalyzeApi "POST" ⟨"k", "m", "", "", "vp", "tp"⟩
        (Except.ok (JVal.obj [("images", JVal.arr [JVal.str "a", JVal.str "b"])]))
        (fun _ => Except.error "boom")).calls.length ≤ 1 ∧
      (handleAnalyzeApi "POST" ⟨"k", "m", "", "", "vp", "tp"⟩
        (Except.ok (JVal.obj [("images", JVal.arr [JVal.str "a", JVal.str "b"])]))
        (fun _ => Except.error "boom")).status ≠ 200) := by
  constructor
  · exact reasoning_strictly_after_vision.2.1 "k" ⟨"m", "", ""⟩
      (JVal.obj [("images",
        JVal.arr [JVal.str "a", JVal.str "b", JVal.str "c", JVal.str "d", JVal.str "e"])])
      (fun _ => Except.error "boom")
      ⟨0, by decide, fun hok => by
        obtain ⟨v, r, hv, -⟩ := hok
        exact Except.noConfusion hv⟩
  · exact reasoning_strictly_after_vision.2.2.2 "POST" ⟨"k", "m", "", "", "vp", "tp"⟩
      (Except.ok (JVal.obj [("images", JVal.arr [JVal.str "a", JVal.str "b"])]))
      (fun _ => Except.error "boom")
      (fun hok => by
        obtain ⟨v, r, hv, -⟩ := hok
        exact Except.noConfusion hv)

/-!  ## Claim C7 — shape of failure responses -/

theorem wellShaped_err (fss : List Nat) (calls : List ArkCall) (s : Nat) (m : String)
    (hs : s ∈ fss) : wellShaped fss ⟨calls, s, errObj m⟩ :=
  Or.inr ⟨hs, m, rfl⟩

theorem wellShaped_res (fss : List Nat) (calls : List ArkCall) (s : String) :
    wellShaped fss ⟨calls, 200, JVal.obj [("resultText", JVal.str s)]⟩ :=
  Or.inl ⟨rfl, s, rfl⟩

/-- Counterexample to claim C7 as stated: in the standalone server a request
to the analyze path with a method that is neither POST nor GET is answered by
the router with `sendText(res, 405, "Method Not Allowed")` — a plain-text
body, not a JSON object of the shape `{ error: string }`. -/
theorem route_wrong_method_is_text :
    routeServer "PUT" "/api/analyze" ⟨[], 200, JVal.null⟩ (404, Payload.text "Not Found") =
      (405, Payload.text "Method Not Allowed") ∧
    payloadIsJson (routeServer "PUT" "/api/analyze" ⟨[], 200, JVal.null⟩
        (404, Payload.text "Not Found")).2 = false :=
  ⟨rfl, rfl⟩

/-- Claim C7 (amended): every response of the analyze handler functions is
either 200 with a `resultText` string or a failure status with a JSON body
`{ error: string }`; the standalone server's handler uses statuses 400 and
500 (reporting a missing model identifier as 400), the serverless handler
uses 400, 405 and 500, with 405 exactly for a non-POST method.  In the
standalone server the router, not the handler, answers a non-POST non-GET
method with plain-text 405 `Method Not Allowed` (and routes a GET on the
analyze path to the static file server). -/
theorem error_responses_shape :
    (∀ (apiKey : String) (cfg : ServerConfig) (bodyResult : Except String JVal)
        (ark : Nat → Except String JVal),
      wellShaped [400, 500] (handleAnalyzeServer apiKey cfg bodyResult ark)) ∧
    (∀ (method : String) (cfg : ApiConfig) (bodyResult : Except String JVal)
        (ark : Nat → Except String JVal),
      wellShaped [400, 405, 500] (handleAnalyzeApi method cfg bodyResult ark)) ∧
    (∀ (method : String) (cfg : ApiConfig) (bodyResult : Except String JVal)
        (ark : Nat → Except String JVal),
      (handleAnalyzeApi method cfg bodyResult ark).status = 405 ↔ method ≠ "POST") ∧
    (∀ (method url : String) (out : HandlerOutcome) (st : Nat × Payload),
      method ≠ "POST" → method ≠ "GET" →
      routeServer method url out st = (405, Payload.text "Method Not Allowed")) ∧
    (∀ (apiKey : String) (cfg : ServerConfig) (body : JVal)
        (ark : Nat → Except String JVal),
      apiKey ≠ "" → serverVisionModel cfg body = "" →
      ¬((imagesOf body).length < 5 ∨ 9 < (imagesOf body).length) →
      handleAnalyzeServer apiKey cfg (Except.ok body) ark =
        ⟨[], 400, errObj "模型参数缺失，请在 API key.txt 中配置 model"⟩) := by
  refine ⟨?_, ?_, ?_, ?_, ?_⟩
  · intro apiKey cfg bodyResult ark
    unfold handleAnalyzeServer
    repeat'
      first
        | split
        | dsimp only
    all_goals
      first
        | exact wellShaped_err _ _ _ _ (by simp)
        | exact wellShaped_res _ _ _
  · intro method cfg bodyResult ark
    unfold handleAnalyzeApi
    repeat'
      first
        | split
        | dsimp only
    all_goals
      first
        | exact wellShaped_err _ _ _ _ (by simp)
        | exact wellShaped_res _ _ _
  · intro method cfg bodyResult ark
    by_cases hm : method ≠ "POST"
    · constructor
      · intro _
        exact hm
      · intro _
        unfold handleAnalyzeApi
        rw [if_pos hm]
    · constructor
      · intro h
        exfalso
        unfold handleAnalyzeApi at h
        rw [if_neg hm] at h
        repeat'
          first
            | split at h
            | dsimp only at h
        all_goals simp at h
      · intro hm2
        exact absurd hm2 hm
  · intro method url out st h1 h2
    unfold routeServer
    rw [if_neg (by simp [h1]), if_neg (by simp [h2]), if_neg (by simp [h2])]
  · intro apiKey cfg body ark hkey hvm hbound
    unfold handleAnalyzeServer
    simp only [if_neg hkey, if_neg hbound, if_pos (Or.inl hvm)]

/-- Witness for C7 (amended) at concrete inputs: a DELETE on the analyze path
gets the plain-text 405 from the router, and the standalone server with no
configured model reports a missing model identifier as 400. -/
theorem error_responses_shape_witness :
    routeServer "DELETE" "/api/analyze" ⟨[], 200, JVal.null⟩ (200, Payload.text "x") =
      (405, Payload.text "Method Not Allowed") ∧
    handleAnalyzeServer "k" ⟨"", "", ""⟩
        (Except.ok (JVal.obj [("images",
          JVal.arr [JVal.str "a", JVal.str "b", JVal.str "c", JVal.str "d", JVal.str "e"])]))
        (fun _ => Except.error "x") =
      ⟨[], 400, errObj "模型参数缺失，请在 API key.txt 中配置 model"⟩ :=
  ⟨error_responses_shape.2.2.2.1 "DELETE" "/api/analyze" ⟨[], 200, JVal.null⟩
      (200, Payload.text "x") (by decide) (by decide),
   error_responses_shape.2.2.2.2 "k" ⟨"", "", ""⟩
      (JVal.obj [("images",
        JVal.arr [JVal.str "a", JVal.str "b", JVal.str "c", JVal.str "d", JVal.str "e"])])
      (fun _ => Except.error "x") (by decide) (by decide) (by decide)⟩

/-!  ## Claim C9 — every 200 success carries a non-empty resultText -/

set_option maxHeartbeats 1000000 in
/-- Claim C9: whenever any of the three handlers responds with status 200,
the body is `{ resultText: s }` with `s` non-empty: when extraction of the
final model response yields the empty string, the fixed non-empty fallback
message is substituted. -/
theorem success_result_nonempty :
    (∀ (apiKey : String) (cfg : ServerConfig) (bodyResult : Except String JVal)
        (ark : Nat → Except String JVal),
      (handleAnalyzeServer apiKey cfg bodyResult ark).status = 200 →
      ∃ s, (handleAnalyzeServer apiKey cfg bodyResult ark).respBody =
          JVal.obj [("resultText", JVal.str s)] ∧ s ≠ "") ∧
    (∀ (method : String) (cfg : ApiConfig) (bodyResult : Except String JVal)
        (ark : Nat → Except String JVal),
      (handleAnalyzeApi method cfg bodyResult ark).status = 200 →
      ∃ s, (handleAnalyzeApi method cfg bodyResult ark).respBody =
          JVal.obj [("resultText", JVal.str s)] ∧ s ≠ "") ∧
    (∀ (method : String) (cfg : CombinedConfig) (bodyResult : Except String JVal)
        (ark : Nat → Except String JVal),
      (handleAnalyzeCombined method cfg bodyResult ark).status = 200 →
      ∃ s, (handleAnalyzeCombined method cfg bodyResult ark).respBody =
          JVal.obj [("resultText", JVal.str s)] ∧ s ≠ "") := by
  refine ⟨?_, ?_, ?_⟩
  · intro apiKey cfg bodyResult ark
    unfold handleAnalyzeServer
    repeat'
      first
        | split
        | dsimp only
    all_goals intro h
    all_goals try omega
    all_goals exact ⟨_, rfl, by (try split) <;> (first | decide | assumption)⟩
  · intro method cfg bodyResult ark
    unfold handleAnalyzeApi
    repeat'
      first
        | split
        | dsimp only
    all_goals intro h
    all_goals try omega
    all_goals exact ⟨_, rfl, by (try split) <;> (first | decide | assumption)⟩
  · intro method cfg bodyResult ark
    unfold handleAnalyzeCombined
    repeat'
      first
        | split
        | dsimp only
    all_goals intro h
    all_goals try omega
    all_goals exact ⟨_, rfl, by (try split) <;> (first | decide | assumption)⟩

/-- Witness for C9: a concrete successful two-image run of the combined
handler whose model response extraction is empty, showing the fallback. -/
theorem success_result_nonempty_witness :
    ∃ s, (handleAnalyzeCombined "POST" ⟨"k", "m", "", "", "ap"⟩
        (Except.ok (JVal.obj [("images", JVal.arr [JVal.str "a", JVal.str "b"])]))
        (fun _ => Except.ok (JVal.obj []))).respBody =
      JVal.obj [("resultText", JVal.str s)] ∧ s ≠ "" :=
  success_result_nonempty.2.2 "POST" ⟨"k", "m", "", "", "ap"⟩
    (Except.ok (JVal.obj [("images", JVal.arr [JVal.str "a", JVal.str "b"])]))
    (fun _ => Except.ok (JVal.obj [])) (by decide)

end GameSearch
